import Mathlib

/-!
Verification of the embedding-integration core of the flutter_wayland
embedder (`src/wayland_display.cc`, `src/wayland_display.h`): the
cooperative task scheduler, the pointer/touch/keyboard input translator
and the platform-message router, shallowly embedded as executable Lean
definitions.
-/

namespace FlutterWayland

/-! ## Pointer phases and events

`FlutterPointerPhase` and the fields of `FlutterPointerEvent` that the
input translator writes (`phase`, `x`, `y`, `buttons`).  The C struct is
zero-initialised (`FlutterPointerEvent event = {}`), so fields the
handlers do not assign stay `0`.  Timestamps are captured from a clock
and carry no translator logic, so they are not modelled. -/

inductive FlutterPointerPhase
  | kCancel
  | kUp
  | kDown
  | kMove
  | kAdd
  | kRemove
  | kHover
deriving DecidableEq, Repr

structure FlutterPointerEvent where
  phase : FlutterPointerPhase
  x : Int
  y : Int
  buttons : Nat
deriving DecidableEq, Repr

/-- Button codes from `<linux/input-event-codes.h>` used by the pointer
`on_button` handler. -/
def BTN_LEFT : Nat := 272

def BTN_RIGHT : Nat := 273

def BTN_MIDDLE : Nat := 274

def kFlutterPointerButtonMousePrimary : Nat := 1

def kFlutterPointerButtonMouseSecondary : Nat := 2

def kFlutterPointerButtonMouseMiddle : Nat := 4

/-! ## Pointer sub-machine

State read and written by the pointer lambdas in the `WaylandDisplay`
constructor: the `static FlutterPointerPhase PointerPhase = kUp` local
and the `cur_x`/`cur_y` members.  `cur_x`/`cur_y` are declared without
an initialiser in the source; the model starts them at 0 (no settled
claim depends on their value before the first assignment). -/

structure PointerSt where
  pointerPhase : FlutterPointerPhase
  curX : Int
  curY : Int
deriving DecidableEq, Repr

def pointerInit : PointerSt := { pointerPhase := .kUp, curX := 0, curY := 0 }

/-- Raw wayland pointer callbacks feeding the translator.  Coordinates
are modelled at integral values (`on_enter` receives `int32_t`,
`on_motion` receives `double`; every claim uses integral inputs). -/
inductive PointerCb
  | enter (x y : Int)
  | leave
  | motion (x y : Int)
  | button (code : Nat) (pressed : Bool)
  | axis (axis : Nat) (value : Int)
deriving DecidableEq, Repr

/-- The `switch (button)` in `pointer.on_button`: `BTN_LEFT`/`BTN_RIGHT`/
`BTN_MIDDLE` map to the Flutter mouse button constants; any other code
leaves the zero-initialised `event.buttons` untouched. -/
def buttonBits (code : Nat) : Nat :=
  if code = BTN_LEFT then kFlutterPointerButtonMousePrimary
  else if code = BTN_RIGHT then kFlutterPointerButtonMouseSecondary
  else if code = BTN_MIDDLE then kFlutterPointerButtonMouseMiddle
  else 0

/-- One raw pointer callback: the events sent via
`FlutterEngineSendPointerEvent` and the updated state, transcribed from
the `pointer.on_enter` / `on_leave` / `on_motion` / `on_button` /
`on_axis` lambdas:
* `enter`  emits `kAdd` at `(x, y)`; it updates neither `PointerPhase`
  nor `cur_x`/`cur_y`;
* `leave`  emits `kRemove` (coordinates stay zero-initialised);
* `motion` stores the position and emits `kHover` when
  `PointerPhase == kUp`, else `kMove`;
* `button` emits `kDown` on press / `kUp` on release at the stored
  position, records the phase in `PointerPhase` and maps the code
  through the `switch`;
* `axis`   only logs. -/
def pointerHandle (s : PointerSt) :
    PointerCb → List FlutterPointerEvent × PointerSt
  | .enter x y => ([{ phase := .kAdd, x := x, y := y, buttons := 0 }], s)
  | .leave => ([{ phase := .kRemove, x := 0, y := 0, buttons := 0 }], s)
  | .motion x y =>
      ([{ phase := if s.pointerPhase = .kUp then .kHover else .kMove,
          x := x, y := y, buttons := 0 }],
       { s with curX := x, curY := y })
  | .button code pressed =>
      let ph : FlutterPointerPhase := if pressed then .kDown else .kUp
      ([{ phase := ph, x := s.curX, y := s.curY, buttons := buttonBits code }],
       { s with pointerPhase := ph })
  | .axis _ _ => ([], s)

/-- Process a raw pointer callback sequence from a given state. -/
def pointerRun (s : PointerSt) :
    List PointerCb → List FlutterPointerEvent × PointerSt
  | [] => ([], s)
  | c :: cs =>
      let r := pointerHandle s c
      let rest := pointerRun r.2 cs
      (r.1 ++ rest.1, rest.2)

/-- The normalized pointer-event stream emitted for a callback sequence
starting from the initial state. -/
def pointerEmits (cs : List PointerCb) : List FlutterPointerEvent :=
  (pointerRun pointerInit cs).1

/-! ## Touch sub-machine

State read and written by the touch lambdas: the single
`static FlutterPointerPhase TouchPhase = kUp` local and the shared
`cur_x`/`cur_y` members.  The source keeps no per-contact-id data: the
`id` parameter of `on_down`/`on_up`/`on_motion` is never read. -/

structure TouchSt where
  touchPhase : FlutterPointerPhase
  curX : Int
  curY : Int
deriving DecidableEq, Repr

def touchInit : TouchSt := { touchPhase := .kUp, curX := 0, curY := 0 }

/-- Raw wayland touch callbacks (`serial`/`time` parameters are unused
by the handlers and omitted). -/
inductive TouchCb
  | down (id : Int) (x y : Int)
  | up (id : Int)
  | motion (id : Int) (x y : Int)
deriving DecidableEq, Repr

/-- The contact id carried by a raw touch callback. -/
def touchCbId : TouchCb → Int
  | .down i _ _ => i
  | .up i => i
  | .motion i _ _ => i

/-- Replace the contact id of a raw touch callback. -/
def touchCbSetId (i : Int) : TouchCb → TouchCb
  | .down _ x y => .down i x y
  | .up _ => .up i
  | .motion _ x y => .motion i x y

/-- One raw touch callback, transcribed from the `touch.on_down` /
`on_up` / `on_motion` lambdas:
* `down`   sets `TouchPhase := kDown`, stores the position and emits
  `kDown` at `(x, y)`;
* `up`     sets `TouchPhase := kUp` and emits `kUp` at the stored
  position;
* `motion` stores the position and emits `kHover` when
  `TouchPhase == kUp`, else `kMove` (it does not update `TouchPhase`).
The `id` argument of each lambda is ignored by the source. -/
def touchHandle (s : TouchSt) : TouchCb → FlutterPointerEvent × TouchSt
  | .down _ x y =>
      ({ phase := .kDown, x := x, y := y, buttons := 0 },
       { touchPhase := .kDown, curX := x, curY := y })
  | .up _ =>
      ({ phase := .kUp, x := s.curX, y := s.curY, buttons := 0 },
       { s with touchPhase := .kUp })
  | .motion _ x y =>
      ({ phase := if s.touchPhase = .kUp then .kHover else .kMove,
         x := x, y := y, buttons := 0 },
       { s with curX := x, curY := y })

/-- Process a raw touch callback sequence, tagging each emitted event
with the contact id of the callback that produced it. -/
def touchRunTagged (s : TouchSt) :
    List TouchCb → List (Int × FlutterPointerEvent)
  | [] => []
  | c :: cs =>
      let r := touchHandle s c
      (touchCbId c, r.1) :: touchRunTagged r.2 cs

/-- The events emitted for a touch callback sequence from the initial
state. -/
def touchEmits (cs : List TouchCb) : List FlutterPointerEvent :=
  (touchRunTagged touchInit cs).map Prod.snd

/-- The events emitted for the callbacks of contact id `i` within the
processing of the full sequence `cs`. -/
def touchEmitsFor (i : Int) (cs : List TouchCb) : List FlutterPointerEvent :=
  ((touchRunTagged touchInit cs).filter (fun p => p.1 = i)).map Prod.snd

/-! ## Keyboard sub-machine

State read and written by the keyboard lambdas: the
`static keyboard_keymap_format keyb_format = no_keymap` local and the
xkb objects.  The compiled keymap and `xkb_state` live in the external
xkbcommon library; symbol resolution
(`xkb_state_key_get_one_sym`, depending on the modifier mask folded in
by `xkb_state_update_mask`) and `xkb_keysym_to_utf32` (0 when the
keysym has no printable code point) are abstracted as function
parameters `sym` and `utf32of`. -/

inductive KeymapFormat
  | no_keymap
  | xkb_v1
deriving DecidableEq, Repr

/-- The modifier mask components passed to `xkb_state_update_mask` by
`keyboard.on_modifiers`. -/
structure XkbModState where
  depressed : Nat
  latched : Nat
  locked : Nat
  group : Nat
deriving DecidableEq, Repr

structure KeyboardSt where
  keybFormat : KeymapFormat
  modState : XkbModState
deriving DecidableEq, Repr

def keyboardInit : KeyboardSt :=
  { keybFormat := .no_keymap, modState := ⟨0, 0, 0, 0⟩ }

/-- The structured key-event message built by `keyboard.on_key` and sent
on the `flutter/keyevent` channel. -/
structure KeyEventMessage where
  channel : String
  keyCode : Nat
  keymap : String
  scanCode : Nat
  modifiers : Nat
  toolkit : String
  unicodeScalarValues : Nat
  type : String
deriving DecidableEq, Repr

/-- The `keyboard.on_key` lambda: when a text keymap has been compiled
(`keyb_format == xkb_v1`), resolve `key + 8` through the xkb state; if
the keysym maps to a nonzero UTF-32 code point, build the key-event
message (note `modifiers` is the literal `0`); otherwise only log the
keysym name and emit nothing. -/
def onKey (sym : XkbModState → Nat → Nat) (utf32of : Nat → Nat)
    (s : KeyboardSt) (key : Nat) (pressed : Bool) : Option KeyEventMessage :=
  if s.keybFormat = .xkb_v1 then
    let keysym := sym s.modState (key + 8)
    let utf32 := utf32of keysym
    if utf32 ≠ 0 then
      some { channel := "flutter/keyevent"
             keyCode := key
             keymap := "linux"
             scanCode := key + 8
             modifiers := 0
             toolkit := "glfw"
             unicodeScalarValues := utf32
             type := if pressed then "keydown" else "keyup" }
    else
      none
  else
    none

/-- Raw wayland keyboard callbacks. -/
inductive KeyboardCb
  | keymapEv (format : KeymapFormat)
  | keyEv (key : Nat) (pressed : Bool)
  | modifiersEv (depressed latched locked group : Nat)
deriving DecidableEq, Repr

/-- One raw keyboard callback:
* `on_keymap` records the format; for `xkb_v1` it compiles a fresh
  keymap and replaces `xkb_state` with `xkb_state_new` (whose modifier
  mask starts cleared);
* `on_key` runs `onKey`;
* `on_modifiers` folds the mask into the xkb state via
  `xkb_state_update_mask(…, depressed, latched, locked, 0, 0, group)`. -/
def keyboardStep (sym : XkbModState → Nat → Nat) (utf32of : Nat → Nat)
    (s : KeyboardSt) : KeyboardCb → List KeyEventMessage × KeyboardSt
  | .keymapEv format =>
      ([], { keybFormat := format
             modState := if format = .xkb_v1 then ⟨0, 0, 0, 0⟩ else s.modState })
  | .keyEv key pressed => ((onKey sym utf32of s key pressed).toList, s)
  | .modifiersEv d l lk g =>
      ([], { s with modState := ⟨d, l, lk, g⟩ })

/-- Process a raw keyboard callback sequence. -/
def keyboardRun (sym : XkbModState → Nat → Nat) (utf32of : Nat → Nat)
    (s : KeyboardSt) : List KeyboardCb → List KeyEventMessage
  | [] => []
  | c :: cs =>
      let r := keyboardStep sym utf32of s c
      r.1 ++ keyboardRun sym utf32of r.2 cs

/-- The key-event messages emitted for a keyboard callback sequence from
the initial state. -/
def keyboardEmits (sym : XkbModState → Nat → Nat) (utf32of : Nat → Nat)
    (cs : List KeyboardCb) : List KeyEventMessage :=
  keyboardRun sym utf32of keyboardInit cs

/-! ## Message router

`platform_message_handlers_` is a `std::map` from channel name to
handler, filled once in `InitializeApplication`; modelled as an
association list with the same six bindings.
`WaylandDisplay::PlatformMessageCallback` looks the channel up: a miss
is answered with a single empty response
(`FlutterEngineSendPlatformMessageResponse(engine_, handle, nullptr, 0)`)
and no handler runs; a hit invokes the bound handler. -/

inductive ChannelHandler
  | accessibility
  | platform
  | textInput
  | platformViews
  | connectivity
  | urlLauncher
deriving DecidableEq, Repr

def platform_message_handlers : List (String × ChannelHandler) :=
  [("flutter/accessibility", .accessibility),
   ("flutter/platform", .platform),
   ("flutter/textinput", .textInput),
   ("flutter/platform_views", .platformViews),
   ("plugins.flutter.io/connectivity", .connectivity),
   ("plugins.flutter.io/url_launcher", .urlLauncher)]

/-- Outcome of `PlatformMessageCallback` for one inbound message: either
the single empty success response of the miss branch, or the invocation
of the registered handler. -/
inductive DispatchOutcome
  | emptyResponse
  | handled (h : ChannelHandler)
deriving DecidableEq, Repr

def PlatformMessageCallback (channel : String) : DispatchOutcome :=
  match platform_message_handlers.lookup channel with
  | none => .emptyResponse
  | some h => .handled h

/-! ## JSON channel handlers

`OnFlutterPlatformChannelPlatformMessage` and
`OnFlutterTextInputChannelPlatformMessage` parse the payload with
rapidjson.  The parsed document is modelled as an optional `Json` value
(`none` = `HasParseError()`).  A handler's observable output is the
list of responses it sends plus the method name it logs (`none` when it
returns early). -/

inductive Json
  | null
  | jbool (b : Bool)
  | jnum (n : Int)
  | jstr (s : String)
  | jarr (elems : List Json)
  | jobj (members : List (String × Json))

/-- rapidjson `FindMember` over the modelled object member list. -/
def findMember (members : List (String × Json)) (key : String) :
    Option Json :=
  members.lookup key

/-- A response produced through
`FlutterEngineSendPlatformMessageResponse`; the handlers under study
only ever send the empty (`nullptr, 0`) response. -/
inductive PlatformResponse
  | empty
deriving DecidableEq, Repr

/-- `OnFlutterPlatformChannelPlatformMessage`: returns early (no
response, nothing logged) on parse error, non-object root, or missing /
non-string `"method"` member; otherwise logs the method and sends one
empty response. -/
def OnFlutterPlatformChannelPlatformMessage (payload : Option Json) :
    List PlatformResponse × Option String :=
  match payload with
  | none => ([], none)
  | some (.jobj members) =>
      match findMember members "method" with
      | some (.jstr m) => ([.empty], some m)
      | _ => ([], none)
  | some _ => ([], none)

/-- `OnFlutterTextInputChannelPlatformMessage`: same early returns;
on a well-formed call it only logs the method (the business logic is
compiled out under `#if 0`) and sends no response. -/
def OnFlutterTextInputChannelPlatformMessage (payload : Option Json) :
    List PlatformResponse × Option String :=
  match payload with
  | none => ([], none)
  | some (.jobj members) =>
      match findMember members "method" with
      | some (.jstr m) => ([], some m)
      | _ => ([], none)
  | some _ => ([], none)

/-- A payload is well-formed for these handlers when it parses to an
object carrying a string `"method"` member. -/
def hasStringMethod : Option Json → Bool
  | some (.jobj members) =>
      match findMember members "method" with
      | some (.jstr _) => true
      | _ => false
  | _ => false

/-! ## url_launcher plugin: canLaunch

`OnFlutterPluginIoUrlLauncher` decodes a standard method call.  Values
of the standard method codec are modelled by `EncodableValue` (URL
strings as `List Char`, matching byte-wise `std::string` operations).
The `canLaunch` branch (the part settled here) extracts `args["url"]`,
answers an error envelope when it is absent or empty, and otherwise a
success envelope holding the boolean
`url.rfind("https:", 0) == 0 || … "http:" … || … "ftp:" … || … "file:" …`
(`rfind(p, 0) == 0` holds exactly when `url` starts with `p`). -/

inductive EncodableValue
  | null
  | evBool (b : Bool)
  | evInt (n : Int)
  | evStr (s : List Char)
  | evMap (entries : List (EncodableValue × EncodableValue))

mutual

/-- Structural equality of `EncodableValue`s (the equivalence induced by
the codec's ordering, used as the `std::map` key comparison). -/
def evBeq : EncodableValue → EncodableValue → Bool
  | .null, .null => true
  | .evBool a, .evBool b => a == b
  | .evInt a, .evInt b => a == b
  | .evStr a, .evStr b => a == b
  | .evMap as, .evMap bs => evEntriesBeq as bs
  | _, _ => false

def evEntriesBeq :
    List (EncodableValue × EncodableValue) →
    List (EncodableValue × EncodableValue) → Bool
  | [], [] => true
  | (a1, a2) :: as, (b1, b2) :: bs =>
      evBeq a1 b1 && evBeq a2 b2 && evEntriesBeq as bs
  | _, _ => false

end

/-- `std::map<EncodableValue, EncodableValue>::find`. -/
def evMapFind (entries : List (EncodableValue × EncodableValue))
    (key : EncodableValue) : Option EncodableValue :=
  (entries.find? (fun p => evBeq p.1 key)).map Prod.snd

/-- `EncodableValue::StringValue` of the found entry; modelled as the
empty string on a non-string value (the handler then takes its
empty-URL error branch, and no settled claim exercises that case). -/
def urlFromArguments (arguments : Option EncodableValue) : List Char :=
  match arguments with
  | some (.evMap entries) =>
      match evMapFind entries (.evStr "url".data) with
      | some (.evStr s) => s
      | _ => []
  | _ => []

inductive ResponseEnvelope
  | success (value : EncodableValue)
  | error (code : String) (message : String)

/-- The four scheme tests of the `canLaunch` branch. -/
def canLaunchCheck (url : List Char) : Bool :=
  "https:".data.isPrefixOf url || "http:".data.isPrefixOf url ||
    "ftp:".data.isPrefixOf url || "file:".data.isPrefixOf url

/-- The `canLaunch` branch of `OnFlutterPluginIoUrlLauncher`
(`method_call->method_name() == "canLaunch"`). -/
def onUrlLauncherCanLaunch (arguments : Option EncodableValue) :
    ResponseEnvelope :=
  let url := urlFromArguments arguments
  if url.isEmpty then .error "argument_error" "No URL provided"
  else .success (.evBool (canLaunchCheck url))

/-! ## Cooperative task scheduler

`wayland_display.h` declares
`std::priority_queue<std::pair<uint64_t, FlutterTask>,
 std::vector<…>, CompareFlutterTask> TaskRunner`.
Entries are modelled as `(target_time, task)` pairs of naturals (the
task handle is opaque — an identifier).  The priority queue itself is
library code; it is modelled by its observable contract: the contents
are kept in pop order — front = `top()` — which for the repository's
comparator `CompareFlutterTask` (`n1.first > n2.first`) means ascending
deadline, and `push` inserts in front of the first strictly later
entry. -/

abbrev TaskEntry : Type := Nat × Nat

/-- `WaylandDisplay::CompareFlutterTask::operator()`. -/
def CompareFlutterTask (n1 n2 : TaskEntry) : Bool :=
  decide (n1.1 > n2.1)

/-- `TaskRunner.push`: insert keeping pop order — the new entry goes in
front of the first queued entry that compares greater than it. -/
def pqPush (e : TaskEntry) : List TaskEntry → List TaskEntry
  | [] => [e]
  | x :: xs =>
      if CompareFlutterTask x e then e :: x :: xs else x :: pqPush e xs

/-- `TaskRunner.top()` on a non-empty queue. -/
def pqTop (q : List TaskEntry) : Option TaskEntry :=
  q.head?

/-- `TaskRunner.pop()`. -/
def pqPop (q : List TaskEntry) : List TaskEntry :=
  q.tail

/-- `WaylandDisplay::PostTaskCallback`:
`TaskRunner.push(std::make_pair(target_time, task))`. -/
def PostTaskCallback (q : List TaskEntry) (task : Nat) (target_time : Nat) :
    List TaskEntry :=
  pqPush (target_time, task) q

/-- Queue contents after a sequence of `PostTaskCallback` calls starting
from the empty queue; `posts` lists `(target_time, task)` pairs. -/
def postAll (posts : List TaskEntry) : List TaskEntry :=
  posts.foldl (fun q e => PostTaskCallback q e.2 e.1) []

/-- Scheduler operations a run of the program performs on `TaskRunner`:
a `PostTaskCallback` or the pop performed by the event loop. -/
inductive SchedOp
  | post (target_time task : Nat)
  | runTop
deriving DecidableEq, Repr

def schedStep (q : List TaskEntry) : SchedOp → List TaskEntry
  | .post target_time task => PostTaskCallback q task target_time
  | .runTop => pqPop q

def schedRun (ops : List SchedOp) : List TaskEntry :=
  ops.foldl schedStep []

/-- The scheduler block of one `WaylandDisplay::Run` event-loop
iteration:
`if (!TaskRunner.empty()) { if (current >= TaskRunner.top().first)
 { pop; FlutterEngineRunTask(top); } }` —
it executes at most one task per iteration. -/
def runDueStep (now : Nat) (q : List TaskEntry) :
    Option TaskEntry × List TaskEntry :=
  match q with
  | [] => (none, [])
  | e :: rest => if now ≥ e.1 then (some e, rest) else (none, e :: rest)

/-- Iterating the event loop's scheduler block (with no intervening
posts) until no due entry remains: the executed entries in execution
order, and the remaining queue. -/
def drainAll (now : Nat) : List TaskEntry → List TaskEntry × List TaskEntry
  | [] => ([], [])
  | e :: rest =>
      if now ≥ e.1 then
        ((e :: (drainAll now rest).1), (drainAll now rest).2)
      else ([], e :: rest)

/-! ## Statement material for the pointer phase law -/

/-- The spec's pointer phase law over an emitted event stream: a `kDown`
is always preceded by a `kAdd` or `kHover`, and a `kUp` by a `kDown`. -/
def PhaseLaw (es : List FlutterPointerEvent) : Prop :=
  ∀ pre ev post, es = pre ++ ev :: post →
    (ev.phase = .kDown →
      ∃ e ∈ pre, e.phase = .kAdd ∨ e.phase = .kHover) ∧
    (ev.phase = .kUp → ∃ e ∈ pre, e.phase = .kDown)

/-- Flags tracked along a raw pointer callback sequence: whether an
`enter` has occurred, and whether a button press has occurred. -/
def updFlags (fl : Bool × Bool) : PointerCb → Bool × Bool
  | .enter _ _ => (true, fl.2)
  | .button _ true => (fl.1, true)
  | _ => fl

/-- Admissibility of the next raw callback given the flags: a button
event needs a previous `enter`, and a release additionally a previous
press.  (The wayland protocol delivers pointer events only while the
pointer is on the surface, and button releases only for seen presses.) -/
def okStep (fl : Bool × Bool) : PointerCb → Bool
  | .button _ true => fl.1
  | .button _ false => fl.1 && fl.2
  | _ => true

/-- Well-formedness of a raw pointer callback sequence under the flags:
every event is admissible for the flags accumulated before it. -/
def wfAux (fl : Bool × Bool) : List PointerCb → Bool
  | [] => true
  | c :: cs => okStep fl c && wfAux (updFlags fl c) cs

/-- Formalisation of the claimed touch-point isolation: the events
emitted for the callbacks of a contact id are the same whether or not
callbacks of other ids are interleaved. -/
def TouchIsolated (i : Int) (cs : List TouchCb) : Prop :=
  touchEmitsFor i cs = touchEmits (cs.filter (fun c => touchCbId c == i))

/-! # Theorems -/

/-- C2: for the pointer sequence Enter(10,10), Motion(12,11),
Button(Primary, pressed), Motion(15,15), Button(Primary, released),
Leave(), the emitted normalized events have phases exactly
[Add, Hover, Down, Move, Up, Remove] in that order, and the Up event
carries position (15,15) — the last motion position — not (12,11). -/
theorem pointer_scenario2_phases :
    (pointerEmits [.enter 10 10, .motion 12 11, .button BTN_LEFT true,
        .motion 15 15, .button BTN_LEFT false, .leave]).map
        FlutterPointerEvent.phase
        = [.kAdd, .kHover, .kDown, .kMove, .kUp, .kRemove] ∧
      ∃ e, (pointerEmits [.enter 10 10, .motion 12 11,
          .button BTN_LEFT true, .motion 15 15, .button BTN_LEFT false,
          .leave])[4]? = some e ∧
        e.phase = .kUp ∧ e.x = 15 ∧ e.y = 15 := by
  refine ⟨by decide, ⟨.kUp, 15, 15, 1⟩, by decide, by decide, rfl, rfl⟩

/-- C5 counterexample: with the concrete trace Down(id 1, (1,1)),
Up(id 2), Motion(id 1, (2,2)), the motion of contact 1 is translated to
`kHover` (because the up of contact 2 reset the shared `TouchPhase`),
while processing contact 1's callbacks alone yields `kMove`: touch
state is not isolated per contact id. -/
theorem touch_isolation_counterexample :
    ¬ TouchIsolated 1 [.down 1 1 1, .up 2, .motion 1 2 2] := by
  unfold TouchIsolated
  decide

/-- C5 as amended: the touch translator keeps a single shared state
(one `TouchPhase`, one last position) for all contact ids and never
reads the id argument: remapping the contact ids of a trace arbitrarily
leaves the emitted events unchanged. -/
theorem touch_state_shared_id_blind (f : Int → Int) (cs : List TouchCb) :
    touchEmits (cs.map (fun c => touchCbSetId (f (touchCbId c)) c))
      = touchEmits cs := by
  suffices h : ∀ s,
      (touchRunTagged s (cs.map (fun c => touchCbSetId (f (touchCbId c)) c))).map
          Prod.snd
        = (touchRunTagged s cs).map Prod.snd from h touchInit
  induction cs with
  | nil => intro s; rfl
  | cons c cs ih =>
      intro s
      have hh : ∀ s', touchHandle s' (touchCbSetId (f (touchCbId c)) c)
          = touchHandle s' c := by
        intro s'; cases c <;> rfl
      simp only [List.map_cons, touchRunTagged, hh]
      exact congrArg _ (ih _)

/-- C4: after a valid (`xkb_v1`) keymap, a key event whose symbol
resolves to a printable code point produces exactly one structured
message with `keyCode` = the hardware code, `scanCode` = code + 8,
a `modifiers` field, `unicodeScalarValues` = the resolved code point
and `type` `"keydown"` / `"keyup"`; when resolution yields no printable
code point, no message is emitted. -/
theorem key_event_message_fields (sym : XkbModState → Nat → Nat)
    (utf32of : Nat → Nat) (s : KeyboardSt) (key : Nat) (pressed : Bool)
    (hfmt : s.keybFormat = .xkb_v1) :
    (utf32of (sym s.modState (key + 8)) ≠ 0 →
      onKey sym utf32of s key pressed =
        some { channel := "flutter/keyevent"
               keyCode := key
               keymap := "linux"
               scanCode := key + 8
               modifiers := 0
               toolkit := "glfw"
               unicodeScalarValues := utf32of (sym s.modState (key + 8))
               type := if pressed then "keydown" else "keyup" }) ∧
    (utf32of (sym s.modState (key + 8)) = 0 →
      onKey sym utf32of s key pressed = none) := by
  constructor <;> intro h <;> simp [onKey, hfmt, h]

/-- C4 witness: with a resolver sending every keycode to keysym 97
(printable), hardware code 30 pressed yields the message with
`keyCode` 30, `scanCode` 38 and type `"keydown"`. -/
theorem key_event_message_fields_witness :
    (⟨.xkb_v1, ⟨0, 0, 0, 0⟩⟩ : KeyboardSt).keybFormat = .xkb_v1 ∧
      onKey (fun _ _ => 97) (fun n => n) ⟨.xkb_v1, ⟨0, 0, 0, 0⟩⟩ 30 true =
        some { channel := "flutter/keyevent"
               keyCode := 30
               keymap := "linux"
               scanCode := 38
               modifiers := 0
               toolkit := "glfw"
               unicodeScalarValues := 97
               type := "keydown" } :=
  ⟨rfl, (key_event_message_fields (fun _ _ => 97) (fun n => n)
      ⟨.xkb_v1, ⟨0, 0, 0, 0⟩⟩ 30 true rfl).1 (by decide)⟩

/-- C10: every key-event message carries `modifiers` = 0, however many
`Modifiers(depressed, latched, locked, group)` events were received
before it; a modifiers event emits nothing and only updates the xkb
modifier state used for symbol resolution. -/
theorem key_event_modifiers_always_zero (sym : XkbModState → Nat → Nat)
    (utf32of : Nat → Nat) (cs : List KeyboardCb) (msg : KeyEventMessage)
    (hmem : msg ∈ keyboardEmits sym utf32of cs) :
    msg.modifiers = 0 ∧
      ∀ (s : KeyboardSt) (d l lk g : Nat),
        keyboardStep sym utf32of s (.modifiersEv d l lk g)
          = ([], { s with modState := ⟨d, l, lk, g⟩ }) := by
  refine ⟨?_, fun s d l lk g => rfl⟩
  have honKey : ∀ (s : KeyboardSt) key pressed m,
      m ∈ (onKey sym utf32of s key pressed).toList → m.modifiers = 0 := by
    intro s key pressed m hm
    unfold onKey at hm
    split at hm
    · split at hm
      · simp at hm
        rw [← hm.2]
      · simp at hm
        rw [← hm.2]
    · simp at hm
  suffices h : ∀ (s : KeyboardSt),
      msg ∈ keyboardRun sym utf32of s cs → msg.modifiers = 0 from
    h keyboardInit hmem
  clear hmem
  induction cs with
  | nil => intro s hmem; simp [keyboardRun] at hmem
  | cons c cs ih =>
      intro s hmem
      simp only [keyboardRun, List.mem_append] at hmem
      rcases hmem with hmem | hmem
      · cases c with
        | keymapEv format => simp [keyboardStep] at hmem
        | keyEv key pressed => exact honKey s key pressed msg hmem
        | modifiersEv d l lk g => simp [keyboardStep] at hmem
      · exact ih _ hmem

/-- C10 witness: after a valid keymap and a modifiers event setting a
nonzero depressed mask, the message emitted for key 30 is in the stream
and carries `modifiers` = 0. -/
theorem key_event_modifiers_always_zero_witness :
    ({ channel := "flutter/keyevent", keyCode := 30, keymap := "linux"
       scanCode := 38, modifiers := 0, toolkit := "glfw"
       unicodeScalarValues := 97, type := "keydown" } : KeyEventMessage) ∈
        keyboardEmits (fun _ _ => 97) (fun n => n)
          [.keymapEv .xkb_v1, .modifiersEv 1 0 0 0, .keyEv 30 true] ∧
      ({ channel := "flutter/keyevent", keyCode := 30, keymap := "linux"
         scanCode := 38, modifiers := 0, toolkit := "glfw"
         unicodeScalarValues := 97, type := "keydown" } :
          KeyEventMessage).modifiers = 0 :=
  ⟨by decide, (key_event_modifiers_always_zero (fun _ _ => 97)
      (fun n => n)
      [.keymapEv .xkb_v1, .modifiersEv 1 0 0 0, .keyEv 30 true]
      _ (by decide)).1⟩

/-- C7: an inbound message on the `flutter/platform` or
`flutter/textinput` JSON channel whose payload fails to parse, is not
an object, or lacks a string `"method"` member makes the handler return
with no response sent and no other observable effect. -/
theorem malformed_message_no_response (payload : Option Json)
    (h : hasStringMethod payload = false) :
    OnFlutterPlatformChannelPlatformMessage payload = ([], none) ∧
    OnFlutterTextInputChannelPlatformMessage payload = ([], none) := by
  cases payload with
  | none => exact ⟨rfl, rfl⟩
  | some j =>
      cases j with
      | jobj members =>
          simp only [hasStringMethod] at h
          simp only [OnFlutterPlatformChannelPlatformMessage,
            OnFlutterTextInputChannelPlatformMessage]
          rcases hm : findMember members "method" with _ | m
          · simp [hm]
          · rw [hm] at h
            cases m <;> simp_all
      | null => exact ⟨rfl, rfl⟩
      | jbool b => exact ⟨rfl, rfl⟩
      | jnum n => exact ⟨rfl, rfl⟩
      | jstr s => exact ⟨rfl, rfl⟩
      | jarr elems => exact ⟨rfl, rfl⟩

/-- C7 witness: the payload `[1]` (an array, hence no object root)
makes both handlers return without a response. -/
theorem malformed_message_no_response_witness :
    hasStringMethod (some (.jarr [.jnum 1])) = false ∧
      OnFlutterPlatformChannelPlatformMessage (some (.jarr [.jnum 1]))
          = ([], none) ∧
      OnFlutterTextInputChannelPlatformMessage (some (.jarr [.jnum 1]))
          = ([], none) :=
  ⟨rfl, malformed_message_no_response (some (.jarr [.jnum 1])) rfl⟩

/-- C3: a message on a channel absent from the handler table is
answered by exactly one empty success response with no handler
invoked; a message on a registered channel invokes exactly that
channel's handler. -/
theorem dispatch_channel_routing (channel : String) :
    (channel ∉ platform_message_handlers.map Prod.fst →
        PlatformMessageCallback channel = .emptyResponse) ∧
      ∀ h, (channel, h) ∈ platform_message_handlers →
        PlatformMessageCallback channel = .handled h := by
  constructor
  · intro hmem
    simp only [platform_message_handlers, List.map_cons, List.map_nil,
      List.mem_cons, List.not_mem_nil, or_false, not_or] at hmem
    obtain ⟨h1, h2, h3, h4, h5, h6⟩ := hmem
    simp [PlatformMessageCallback, platform_message_handlers,
      List.lookup_cons, beq_false_of_ne h1, beq_false_of_ne h2,
      beq_false_of_ne h3, beq_false_of_ne h4, beq_false_of_ne h5,
      beq_false_of_ne h6]
  · intro h hmem
    simp only [platform_message_handlers, List.mem_cons,
      List.not_mem_nil, or_false, Prod.mk.injEq] at hmem
    rcases hmem with ⟨rfl, rfl⟩ | ⟨rfl, rfl⟩ | ⟨rfl, rfl⟩ | ⟨rfl, rfl⟩ |
      ⟨rfl, rfl⟩ | ⟨rfl, rfl⟩ <;> rfl

/-- C3 witness: `"unregistered/channel"` is unregistered and yields the
empty success response; `"flutter/platform"` is registered and is
routed to the platform-channel handler. -/
theorem dispatch_channel_routing_witness :
    PlatformMessageCallback "unregistered/channel" = .emptyResponse ∧
      PlatformMessageCallback "flutter/platform" = .handled .platform :=
  ⟨(dispatch_channel_routing "unregistered/channel").1 (by decide),
   (dispatch_channel_routing "flutter/platform").2 .platform (by decide)⟩

/-- C9: a `canLaunch` call carrying a non-empty URL string is answered
by a success envelope whose boolean is true exactly when the URL starts
with `"https:"`, `"http:"`, `"ftp:"` or `"file:"`. -/
theorem url_launcher_canLaunch_scheme (url : List Char) (hne : url ≠ []) :
    onUrlLauncherCanLaunch
        (some (.evMap [(.evStr "url".data, .evStr url)]))
      = .success (.evBool ("https:".data.isPrefixOf url ||
          "http:".data.isPrefixOf url || "ftp:".data.isPrefixOf url ||
          "file:".data.isPrefixOf url)) := by
  have hurl : urlFromArguments
      (some (.evMap [(.evStr "url".data, .evStr url)])) = url := by
    simp [urlFromArguments, evMapFind, evBeq]
  unfold onUrlLauncherCanLaunch
  rw [hurl]
  simp [List.isEmpty_iff, hne, canLaunchCheck]

/-- C9 witness: `"https://example.com"` yields `true` and
`"gopher://x"` yields `false`. -/
theorem url_launcher_canLaunch_scheme_witness :
    ("https://example.com".data ≠ [] ∧
      onUrlLauncherCanLaunch (some (.evMap [(.evStr "url".data,
          .evStr "https://example.com".data)]))
        = .success (.evBool
            ("https:".data.isPrefixOf "https://example.com".data ||
              "http:".data.isPrefixOf "https://example.com".data ||
              "ftp:".data.isPrefixOf "https://example.com".data ||
              "file:".data.isPrefixOf "https://example.com".data)) ∧
      ("https:".data.isPrefixOf "https://example.com".data ||
        "http:".data.isPrefixOf "https://example.com".data ||
        "ftp:".data.isPrefixOf "https://example.com".data ||
        "file:".data.isPrefixOf "https://example.com".data) = true) ∧
    ("gopher://x".data ≠ [] ∧
      onUrlLauncherCanLaunch (some (.evMap [(.evStr "url".data,
          .evStr "gopher://x".data)]))
        = .success (.evBool
            ("https:".data.isPrefixOf "gopher://x".data ||
              "http:".data.isPrefixOf "gopher://x".data ||
              "ftp:".data.isPrefixOf "gopher://x".data ||
              "file:".data.isPrefixOf "gopher://x".data)) ∧
      ("https:".data.isPrefixOf "gopher://x".data ||
        "http:".data.isPrefixOf "gopher://x".data ||
        "ftp:".data.isPrefixOf "gopher://x".data ||
        "file:".data.isPrefixOf "gopher://x".data) = false) :=
  ⟨⟨by decide, url_launcher_canLaunch_scheme _ (by decide), by decide⟩,
   ⟨by decide, url_launcher_canLaunch_scheme _ (by decide), by decide⟩⟩

/-! ## Scheduler lemmas -/

theorem pqPush_perm (e : TaskEntry) (q : List TaskEntry) :
    List.Perm (pqPush e q) (e :: q) := by
  induction q with
  | nil => rfl
  | cons x xs ih =>
      unfold pqPush
      split
      · exact List.Perm.refl _
      · exact (ih.cons x).trans (List.Perm.swap e x xs)

theorem pqPush_sorted (e : TaskEntry) (q : List TaskEntry)
    (h : q.Pairwise (fun a b => a.1 ≤ b.1)) :
    (pqPush e q).Pairwise (fun a b => a.1 ≤ b.1) := by
  induction q with
  | nil => simp [pqPush]
  | cons x xs ih =>
      rw [List.pairwise_cons] at h
      obtain ⟨hx, hxs⟩ := h
      unfold pqPush
      split
      · rename_i hcmp
        have hex : e.1 ≤ x.1 := by
          simp [CompareFlutterTask] at hcmp
          omega
        refine List.pairwise_cons.mpr ⟨?_, List.pairwise_cons.mpr ⟨hx, hxs⟩⟩
        intro b hb
        rcases List.mem_cons.mp hb with rfl | hb'
        · exact hex
        · exact le_trans hex (hx b hb')
      · rename_i hcmp
        have hxe : x.1 ≤ e.1 := by
          simp [CompareFlutterTask] at hcmp
          omega
        refine List.pairwise_cons.mpr ⟨?_, ih hxs⟩
        intro b hb
        rcases List.mem_cons.mp ((pqPush_perm e xs).mem_iff.mp hb)
          with rfl | hb'
        · exact hxe
        · exact hx b hb'

theorem foldl_post_perm (posts : List TaskEntry) :
    ∀ q : List TaskEntry,
      List.Perm (posts.foldl (fun q e => PostTaskCallback q e.2 e.1) q)
        (posts ++ q) := by
  induction posts with
  | nil => intro q; simp
  | cons e ps ih =>
      intro q
      simp only [List.foldl_cons, List.cons_append]
      have h2 : List.Perm (PostTaskCallback q e.2 e.1) (e :: q) :=
        pqPush_perm e q
      exact ((ih _).trans (List.Perm.append_left ps h2)).trans
        List.perm_middle

theorem foldl_post_sorted (posts : List TaskEntry) :
    ∀ q : List TaskEntry, q.Pairwise (fun a b => a.1 ≤ b.1) →
      (posts.foldl (fun q e => PostTaskCallback q e.2 e.1) q).Pairwise
        (fun a b => a.1 ≤ b.1) := by
  induction posts with
  | nil => intro q h; simpa using h
  | cons e ps ih =>
      intro q h
      simp only [List.foldl_cons]
      exact ih _ (pqPush_sorted e q h)

theorem postAll_perm (posts : List TaskEntry) :
    List.Perm (postAll posts) posts := by
  simpa using foldl_post_perm posts []

theorem postAll_sorted (posts : List TaskEntry) :
    (postAll posts).Pairwise (fun a b => a.1 ≤ b.1) :=
  foldl_post_sorted posts [] (by simp)

theorem schedRun_sorted (ops : List SchedOp) :
    (schedRun ops).Pairwise (fun a b => a.1 ≤ b.1) := by
  suffices h : ∀ q : List TaskEntry, q.Pairwise (fun a b => a.1 ≤ b.1) →
      (ops.foldl schedStep q).Pairwise (fun a b => a.1 ≤ b.1) from
    h [] (by simp)
  induction ops with
  | nil => intro q h; simpa using h
  | cons op ops ih =>
      intro q h
      simp only [List.foldl_cons]
      refine ih _ ?_
      cases op with
      | post target_time task => exact pqPush_sorted (target_time, task) q h
      | runTop =>
          cases q with
          | nil => simp [schedStep, pqPop]
          | cons x xs => exact (List.pairwise_cons.mp h).2

theorem drainAll_split (now : Nat) (q : List TaskEntry) :
    (drainAll now q).1 ++ (drainAll now q).2 = q := by
  induction q with
  | nil => rfl
  | cons x xs ih =>
      unfold drainAll
      split
      · simpa using ih
      · rfl

theorem drainAll_eq_filter (now : Nat) (q : List TaskEntry)
    (h : q.Pairwise (fun a b => a.1 ≤ b.1)) :
    (drainAll now q).1 = q.filter (fun e => decide (e.1 ≤ now)) ∧
      (drainAll now q).2 = q.filter (fun e => !decide (e.1 ≤ now)) := by
  induction q with
  | nil => exact ⟨rfl, rfl⟩
  | cons x xs ih =>
      rw [List.pairwise_cons] at h
      obtain ⟨hx, hxs⟩ := h
      obtain ⟨ih1, ih2⟩ := ih hxs
      by_cases hd : now ≥ x.1
      · have hpx : decide (x.1 ≤ now) = true := by simpa using hd
        constructor
        · simp [drainAll, hd, List.filter_cons, hpx, ih1]
        · simp [drainAll, hd, List.filter_cons, hpx, ih2]
      · have hall : ∀ e ∈ x :: xs, ¬ e.1 ≤ now := by
          intro e he
          rcases List.mem_cons.mp he with rfl | he'
          · omega
          · have := hx e he'
            omega
        constructor
        · rw [show (drainAll now (x :: xs)).1 = [] by
            simp [drainAll, hd]]
          symm
          rw [List.filter_eq_nil_iff]
          intro e he
          simpa using hall e he
        · rw [show (drainAll now (x :: xs)).2 = x :: xs by
            simp [drainAll, hd]]
          symm
          rw [List.filter_eq_self]
          intro e he
          simpa using hall e he

/-- C8: after any sequence of `Post` and pop operations on `TaskRunner`,
the entry returned by `top()` carries the minimum deadline among all
currently queued entries (the priority-queue invariant induced by
`CompareFlutterTask`). -/
theorem taskRunner_top_minimum (ops : List SchedOp) (e x : TaskEntry)
    (htop : pqTop (schedRun ops) = some e) (hx : x ∈ schedRun ops) :
    e.1 ≤ x.1 := by
  have hs := schedRun_sorted ops
  cases hq : schedRun ops with
  | nil => rw [hq] at htop; simp [pqTop] at htop
  | cons y ys =>
      rw [hq] at htop hx hs
      simp only [pqTop, List.head?_cons, Option.some.injEq] at htop
      subst htop
      rcases List.mem_cons.mp hx with rfl | hx'
      · exact le_refl _
      · exact (List.pairwise_cons.mp hs).1 x hx'

/-- C8 witness: after posting deadlines 5, 1, 20, popping once and
posting deadline 7, the top is the deadline-5 entry and it is ≤ the
queued deadline-20 entry. -/
theorem taskRunner_top_minimum_witness :
    pqTop (schedRun [.post 5 0, .post 1 1, .post 20 2, .runTop,
        .post 7 3]) = some (5, 0) ∧
      (20, 2) ∈ schedRun [.post 5 0, .post 1 1, .post 20 2, .runTop,
        .post 7 3] ∧
      (5, 0).1 ≤ (20, 2).1 :=
  ⟨by decide, by decide,
   taskRunner_top_minimum [.post 5 0, .post 1 1, .post 20 2, .runTop,
     .post 7 3] (5, 0) (20, 2) (by decide) (by decide)⟩

/-- C1 counterexample: after posting tasks with deadlines 1 and 2, one
drain of the scheduler (the scheduler block of one event-loop
iteration) at `now = 10` executes only the deadline-1 task and returns
while the due deadline-2 entry is still queued — the drain does not
execute every queued task with deadline ≤ now and stops while a due
entry remains. -/
theorem runDue_single_iteration_counterexample :
    (runDueStep 10 (postAll [(1, 0), (2, 1)])).1 = some (1, 0) ∧
      ∃ x ∈ (runDueStep 10 (postAll [(1, 0), (2, 1)])).2, x.1 ≤ 10 := by
  constructor
  · decide
  · exact ⟨(2, 1), by decide, by decide⟩

/-- C1 as amended: one event-loop iteration executes at most one task —
the queued entry of minimum deadline, and only when due — and iterating
that drain step until no due entry remains (with no intervening posts)
executes exactly the posted tasks with deadline ≤ now, in
non-decreasing deadline order, leaving exactly the others queued. -/
theorem runDue_drain_amended (posts : List TaskEntry) (now : Nat) :
    (∀ e, (runDueStep now (postAll posts)).1 = some e →
        e.1 ≤ now ∧ ∀ x ∈ postAll posts, e.1 ≤ x.1) ∧
      (∀ e ∈ (drainAll now (postAll posts)).1, e.1 ≤ now) ∧
      (∀ e ∈ (drainAll now (postAll posts)).2, now < e.1) ∧
      (drainAll now (postAll posts)).1.Pairwise (fun a b => a.1 ≤ b.1) ∧
      List.Perm (drainAll now (postAll posts)).1
        (posts.filter (fun e => decide (e.1 ≤ now))) ∧
      List.Perm (drainAll now (postAll posts)).2
        (posts.filter (fun e => !decide (e.1 ≤ now))) := by
  have hsorted := postAll_sorted posts
  have hperm := postAll_perm posts
  obtain ⟨hf1, hf2⟩ := drainAll_eq_filter now (postAll posts) hsorted
  refine ⟨?_, ?_, ?_, ?_, ?_, ?_⟩
  · intro e he
    cases hq : postAll posts with
    | nil => rw [hq] at he; simp [runDueStep] at he
    | cons y ys =>
        rw [hq] at he hsorted
        rw [show runDueStep now (y :: ys)
            = if now ≥ y.1 then (some y, ys) else (none, y :: ys) from
          rfl] at he
        split at he
        · rename_i hdue
          simp only [Option.some.injEq] at he
          subst he
          refine ⟨hdue, ?_⟩
          intro x hx
          rcases List.mem_cons.mp hx with rfl | hx'
          · exact le_refl _
          · exact (List.pairwise_cons.mp hsorted).1 x hx'
        · simp at he
  · intro e he
    rw [hf1] at he
    simpa using (List.mem_filter.mp he).2
  · intro e he
    rw [hf2] at he
    have := (List.mem_filter.mp he).2
    simp at this
    omega
  · rw [hf1]
    exact List.Pairwise.filter _ hsorted
  · rw [hf1]
    exact List.Perm.filter _ hperm
  · rw [hf2]
    exact List.Perm.filter _ hperm

/-- C1 witness: with posted deadlines 5, 1, 20 and `now = 10`, the
single iteration executes the deadline-1 entry, which is due and of
minimum deadline. -/
theorem runDue_drain_amended_witness :
    (runDueStep 10 (postAll [(5, 0), (1, 1), (20, 2)])).1 = some (1, 1) ∧
      ((1, 1) : TaskEntry).1 ≤ 10 ∧
      ∀ x ∈ postAll [(5, 0), (1, 1), (20, 2)],
        ((1, 1) : TaskEntry).1 ≤ x.1 :=
  ⟨by decide,
   (runDue_drain_amended [(5, 0), (1, 1), (20, 2)] 10).1 (1, 1)
     (by decide)⟩

/-! ## Pointer phase-law lemmas -/

theorem phaseLaw_nil : PhaseLaw [] := by
  intro pre ev post heq
  exact absurd heq (by simp)

theorem phaseLaw_append_single {es : List FlutterPointerEvent}
    {e : FlutterPointerEvent} (h : PhaseLaw es)
    (hd : e.phase = .kDown → ∃ a ∈ es, a.phase = .kAdd ∨ a.phase = .kHover)
    (hu : e.phase = .kUp → ∃ a ∈ es, a.phase = .kDown) :
    PhaseLaw (es ++ [e]) := by
  intro pre ev post heq
  rcases List.eq_nil_or_concat post with rfl | ⟨post', a, rfl⟩
  · obtain ⟨hes, het⟩ := List.append_inj' heq rfl
    subst hes
    obtain rfl : e = ev := by injection het
    exact ⟨hd, hu⟩
  · have heq2 : es ++ [e] = (pre ++ ev :: post') ++ [a] := by
      simpa using heq
    obtain ⟨hes, -⟩ := List.append_inj' heq2 rfl
    exact h pre ev post' hes

theorem phaseLaw_aux (cs : List PointerCb) :
    ∀ (fl : Bool × Bool) (s : PointerSt) (acc : List FlutterPointerEvent),
      (fl.1 = true → ∃ a ∈ acc, a.phase = .kAdd ∨ a.phase = .kHover) →
      (fl.2 = true → ∃ a ∈ acc, a.phase = .kDown) →
      wfAux fl cs = true → PhaseLaw acc →
      PhaseLaw (acc ++ (pointerRun s cs).1) := by
  induction cs with
  | nil =>
      intro fl s acc h1 h2 hwf h4
      simpa [pointerRun] using h4
  | cons c cs ih =>
      intro fl s acc h1 h2 hwf h4
      rw [wfAux, Bool.and_eq_true] at hwf
      obtain ⟨hok, hwf'⟩ := hwf
      cases c with
      | axis ax v =>
          have hshape : acc ++ (pointerRun s (.axis ax v :: cs)).1
              = acc ++ (pointerRun s cs).1 := by
            simp [pointerRun, pointerHandle]
          rw [hshape]
          exact ih fl s acc h1 h2 hwf' h4
      | enter x y =>
          have hshape : acc ++ (pointerRun s (.enter x y :: cs)).1
              = (acc ++ [{ phase := .kAdd, x := x, y := y, buttons := 0 }])
                ++ (pointerRun s cs).1 := by
            simp [pointerRun, pointerHandle]
          rw [hshape]
          refine ih (true, fl.2) s _ ?_ ?_ hwf' ?_
          · intro _
            exact ⟨_, List.mem_append_right acc (List.mem_singleton_self _),
              Or.inl rfl⟩
          · intro hb
            obtain ⟨a, ha, hph⟩ := h2 hb
            exact ⟨a, List.mem_append_left _ ha, hph⟩
          · refine phaseLaw_append_single h4 ?_ ?_ <;> intro hc <;>
              simp at hc
      | leave =>
          have hshape : acc ++ (pointerRun s (.leave :: cs)).1
              = (acc ++ [{ phase := .kRemove, x := 0, y := 0, buttons := 0 }])
                ++ (pointerRun s cs).1 := by
            simp [pointerRun, pointerHandle]
          rw [hshape]
          refine ih fl s _ ?_ ?_ hwf' ?_
          · intro hb
            obtain ⟨a, ha, hph⟩ := h1 hb
            exact ⟨a, List.mem_append_left _ ha, hph⟩
          · intro hb
            obtain ⟨a, ha, hph⟩ := h2 hb
            exact ⟨a, List.mem_append_left _ ha, hph⟩
          · refine phaseLaw_append_single h4 ?_ ?_ <;> intro hc <;>
              simp at hc
      | motion x y =>
          have hshape : acc ++ (pointerRun s (.motion x y :: cs)).1
              = (acc ++ [{ phase := if s.pointerPhase = .kUp then .kHover
                  else .kMove, x := x, y := y, buttons := 0 }])
                ++ (pointerRun { s with curX := x, curY := y } cs).1 := by
            simp [pointerRun, pointerHandle]
          rw [hshape]
          refine ih fl _ _ ?_ ?_ hwf' ?_
          · intro hb
            obtain ⟨a, ha, hph⟩ := h1 hb
            exact ⟨a, List.mem_append_left _ ha, hph⟩
          · intro hb
            obtain ⟨a, ha, hph⟩ := h2 hb
            exact ⟨a, List.mem_append_left _ ha, hph⟩
          · refine phaseLaw_append_single h4 ?_ ?_ <;> intro hc <;>
              by_cases hup : s.pointerPhase = .kUp <;> simp [hup] at hc
      | button code pressed =>
          cases pressed with
          | true =>
              have hfe : fl.1 = true := hok
              have hshape : acc ++ (pointerRun s (.button code true :: cs)).1
                  = (acc ++ [{ phase := .kDown, x := s.curX, y := s.curY, buttons := buttonBits code }])
                    ++ (pointerRun { s with pointerPhase := .kDown } cs).1 := by
                simp [pointerRun, pointerHandle]
              rw [hshape]
              refine ih (fl.1, true) _ _ ?_ ?_ hwf' ?_
              · intro hb
                obtain ⟨a, ha, hph⟩ := h1 hb
                exact ⟨a, List.mem_append_left _ ha, hph⟩
              · intro _
                exact ⟨_, List.mem_append_right acc
                  (List.mem_singleton_self _), rfl⟩
              · refine phaseLaw_append_single h4 (fun _ => h1 hfe) ?_
                intro hc
                simp at hc
          | false =>
              have hff : (fl.1 && fl.2) = true := hok
              rw [Bool.and_eq_true] at hff
              have hshape : acc ++ (pointerRun s (.button code false :: cs)).1
                  = (acc ++ [{ phase := .kUp, x := s.curX, y := s.curY, buttons := buttonBits code }])
                    ++ (pointerRun { s with pointerPhase := .kUp } cs).1 := by
                simp [pointerRun, pointerHandle]
              rw [hshape]
              refine ih fl _ _ ?_ ?_ hwf' ?_
              · intro hb
                obtain ⟨a, ha, hph⟩ := h1 hb
                exact ⟨a, List.mem_append_left _ ha, hph⟩
              · intro hb
                obtain ⟨a, ha, hph⟩ := h2 hb
                exact ⟨a, List.mem_append_left _ ha, hph⟩
              · refine phaseLaw_append_single h4 ?_ (fun _ => h2 hff.2)
                intro hc
                simp at hc

/-- C6 counterexample: for the raw callback sequence consisting of the
single event Button(BTN_LEFT, pressed) — with no prior Enter — the
translator emits a `kDown` with no preceding `kAdd` or `kHover`: the
phase law does not hold for arbitrary raw pointer callback sequences. -/
theorem pointer_phase_law_counterexample :
    ¬ PhaseLaw (pointerEmits [.button BTN_LEFT true]) := by
  intro h
  have h2 := (h [] { phase := .kDown, x := 0, y := 0, buttons := kFlutterPointerButtonMousePrimary } [] (by decide)).1 rfl
  obtain ⟨a, ha, -⟩ := h2
  exact absurd ha (List.not_mem_nil a)

/-- C6 as amended: for every raw pointer callback sequence in which
each button event is preceded by an enter and each button release by a
button press (as the wayland protocol delivers them), the emitted
stream satisfies the phase law: `kDown` never occurs without a
preceding `kAdd` or `kHover`, and `kUp` never without a preceding
`kDown`. -/
theorem pointer_phase_law_wellformed (cs : List PointerCb)
    (h : wfAux (false, false) cs = true) :
    PhaseLaw (pointerEmits cs) := by
  have haux := phaseLaw_aux cs (false, false) pointerInit []
    (fun hc => absurd hc (by decide)) (fun hc => absurd hc (by decide))
    h phaseLaw_nil
  simpa [pointerEmits] using haux

/-- C6 witness: a well-formed enter → motion → press → release → leave
sequence satisfies the phase law. -/
theorem pointer_phase_law_wellformed_witness :
    wfAux (false, false) [.enter 1 2, .motion 3 4, .button BTN_LEFT true,
        .button BTN_LEFT false, .leave] = true ∧
      PhaseLaw (pointerEmits [.enter 1 2, .motion 3 4,
        .button BTN_LEFT true, .button BTN_LEFT false, .leave]) :=
  ⟨by decide, pointer_phase_law_wellformed _ (by decide)⟩

end FlutterWayland
